import Mathlib

/-!
# Verification of `bdwm-wp-env` against its specification

Shallow embedding of the core of the `bdwm-wp-env` CLI:

* `lib/download-sources.js` (`downloadSources`, `downloadGitSource`) —
  source-acquisition deduplication and git progress reporting;
* `lib/build-docker-compose-config.js` (`getMounts`,
  `buildDockerComposeConfig`) — the container-topology generator;
* `lib/commands/start.js` (`start`) — the orchestration sequence, modelled
  as a function producing a structured trace of the external actions the
  command performs, parameterised by oracles for the outcomes of the
  fallible steps (database connection checks and per-environment WordPress
  configuration).

Helpers whose implementation lives outside the provided sources
(`retry.js`, `cache.js`, the source-descriptor resolver of `config.js`,
`hasSameCoreSource` of `wordpress.js`) are modelled from the specification;
each such definition is marked `Modelled from the spec:` in its doc
comment.
-/

namespace WpEnv

/-- The three source types produced by the source-descriptor resolver
(spec §4.1): local paths, git repositories, and zip archives. -/
inductive SourceType where
  | local
  | git
  | zip
deriving DecidableEq, Repr

/-- A resolved source descriptor (`WPSource` in the JS sources).  In the
JS object, `url` and `ref` are absent on local sources; we model absent
fields with `Option`.  `testsPath` is the dedicated "tests variant" path
attached to core sources; `path` is the resolved destination path. -/
structure WPSource where
  type : SourceType
  url : Option String
  ref : Option String
  path : String
  testsPath : String
  basename : String
deriving DecidableEq, Repr

/-- One environment's resolved configuration (`WPServiceConfig`):
port, optional core source, plugin/theme source lists, and the directory
mappings (an object, modelled as an association list preserving entry
order as `Object.entries` does). -/
structure WPServiceConfig where
  port : Nat
  coreSource : Option WPSource
  pluginSources : List WPSource
  themeSources : List WPSource
  mappings : List (String × WPSource)
deriving Repr

/-- The resolved top-level configuration (`WPConfig`).  `config.env` is an
object with exactly the keys `development` and `tests`, in that insertion
order, so `Object.values( config.env )` is `[ development, tests ]`. -/
structure WPConfig where
  coreSource : Option WPSource
  development : WPServiceConfig
  tests : WPServiceConfig
  configDirectoryPath : String
deriving Repr

/-! ## `downloadSources` (lib/download-sources.js, lines 32–70)

`downloadSources` walks `Object.values( config.env )`, adds each
environment's plugin sources, theme sources and core source through
`addSource`, and downloads the collected list.  `addSource` pushes a
source only when `source && source.url` is truthy and `source.url` has
not been seen before. -/

/-- JS truthiness of the `url` field: `undefined` (absent) and the empty
string are falsy. -/
def urlTruthy : Option String → Bool
  | none => false
  | some u => !(u == "")

/-- The order in which `downloadSources` feeds sources to `addSource`:
for each environment (development first, then tests): plugin sources,
then theme sources, then the core source.  A `none` entry stands for a
`null` core source, which `addSource` ignores. -/
def sourceTraversal (config : WPConfig) : List (Option WPSource) :=
  config.development.pluginSources.map some ++
    config.development.themeSources.map some ++
    [config.development.coreSource] ++
    config.tests.pluginSources.map some ++
    config.tests.themeSources.map some ++
    [config.tests.coreSource]

/-- The `addSource` loop of `downloadSources`: `sources`/`addedSources`
accumulation, processing the traversal in order.  `seen` is the set of
keys of the `addedSources` object; a source is pushed exactly when it is
non-null, its `url` is truthy, and its `url` was not seen before. -/
def addSources : List (Option WPSource) → List String → List WPSource
  | [], _ => []
  | none :: rest, seen => addSources rest seen
  | some s :: rest, seen =>
    match s.url with
    | none => addSources rest seen
    | some u =>
      if u = "" then addSources rest seen
      else if u ∈ seen then addSources rest seen
      else s :: addSources rest (u :: seen)

/-- The deduplicated list of sources that `downloadSources` passes to
`downloadSource`, in order. -/
def downloadedSources (config : WPConfig) : List WPSource :=
  addSources (sourceTraversal config) []

/-! ## `downloadGitSource` progress reporting
(lib/download-sources.js, lines 100–168)

`downloadGitSource` calls `onProgress( 0 )` on entry, then for every
`transferProgress` event reported by the git library calls
`onProgress( (receivedObjects + indexedObjects) / (totalObjects * 2) )`,
and finally calls `onProgress( 1 )` once the checkout succeeded.  The
transfer statistics come from the external git library; we model a run by
the list of statistics it reported. -/

/-- One `transferProgress` event from the git library: the three object
counters the callback reads. -/
structure TransferStats where
  receivedObjects : Nat
  indexedObjects : Nat
  totalObjects : Nat
deriving DecidableEq, Repr

/-- The progress value computed by the `transferProgress` callback of
`downloadGitSource` (JS number division, modelled over `ℚ`). -/
def transferProgressValue (s : TransferStats) : ℚ :=
  ((s.receivedObjects : ℚ) + (s.indexedObjects : ℚ)) / ((s.totalObjects : ℚ) * 2)

/-- The full sequence of arguments passed to `onProgress` during a
successful `downloadGitSource` run whose fetch reported the transfer
statistics `stats`: `0` on entry, the callback value for each event, and
`1` at the end. -/
def gitProgressCalls (stats : List TransferStats) : List ℚ :=
  0 :: stats.map transferProgressValue ++ [1]

/-! ## Topology generator (lib/build-docker-compose-config.js)

`fs.readdirSync` is an external filesystem primitive; the generator is
parameterised by `readDir`, the directory-listing function, and
`path.join( a, b )` is modelled as `a ++ "/" ++ b`. -/

/-- Model of `path.join` for one extra segment, as used on
`path.join( wpSource.path, filename )`. -/
def pathJoin (a b : String) : String := a ++ "/" ++ b

/-- `getMounts` (lib/build-docker-compose-config.js, lines 263–284):
volume mounts for one service, in order: core mount, directory mounts,
plugin mounts, theme mounts.  When `config.coreSource` is null the core
mount host side falls back to the `wordpressDefault` named volume. -/
def getMounts (config : WPServiceConfig) (wordpressDefault : String) : List String :=
  let directoryMounts := config.mappings.map
    (fun m => m.2.path ++ ":/var/www/html/" ++ m.1)
  let pluginMounts := config.pluginSources.map
    (fun source => source.path ++ ":/var/www/html/wp-content/plugins/" ++ source.basename)
  let themeMounts := config.themeSources.map
    (fun source => source.path ++ ":/var/www/html/wp-content/themes/" ++ source.basename)
  let coreMount :=
    (match config.coreSource with
      | some c => c.path
      | none => wordpressDefault) ++ ":/var/www/html"
  coreMount :: (directoryMounts ++ pluginMounts ++ themeMounts)

/-- Modelled from the spec: `hasSameCoreSource` lives in `lib/wordpress.js`,
which is not among the provided sources.  Spec §3: "Two EnvironmentConfigs
are source-equivalent iff their coreSource descriptors compare equal by
destinationPath."  Two absent core sources compare equal; an absent and a
present one do not. -/
def hasSameCoreSource : Option WPSource → Option WPSource → Bool
  | none, none => true
  | some a, some b => a.path == b.path
  | _, _ => false

/-- The relevant fields of one generated docker-compose service. -/
structure DCService where
  ports : List String
  volumes : List String
deriving Repr

/-- The relevant fields of the generated docker-compose config: the
services the claims are about, and the names declared in the top-level
`volumes` section (in object-key order). -/
structure DockerComposeConfig where
  mysql : DCService
  wordpress : DCService
  testsWordpress : DCService
  cli : DCService
  testsCli : DCService
  phpunit : DCService
  volumes : List String
deriving Repr

/-- `buildDockerComposeConfig` (lib/build-docker-compose-config.js,
lines 294–424), parameterised by the filesystem listing `readDir`
(`fs.readdirSync`).  The shared-core rewrite of lines 318–346 replaces the
tests core mount (via `shift`/`unshift`) with the tests-variant path and,
for a local core, one mount per top-level entry of the shared core
directory other than `wp-config.php`, `wp-config-sample.php` and
`wp-content`. -/
def buildDockerComposeConfig (readDir : String → List String)
    (config : WPConfig) : DockerComposeConfig :=
  let developmentMounts := getMounts config.development "wordpress"
  let testsMounts0 := getMounts config.tests "tests-wordpress"
  let testsMounts :=
    match config.development.coreSource with
    | none => testsMounts0
    | some wpSource =>
      if hasSameCoreSource config.development.coreSource config.tests.coreSource then
        (wpSource.testsPath ++ ":/var/www/html") ::
          ((if wpSource.type = SourceType.local then
              ((readDir wpSource.path).filter
                  (fun filename =>
                    filename ≠ "wp-config.php" ∧
                    filename ≠ "wp-config-sample.php" ∧
                    filename ≠ "wp-content")).map
                (fun filename =>
                  pathJoin wpSource.path filename ++ ":/var/www/html/" ++ filename)
            else []) ++ testsMounts0.tail)
      else testsMounts0
  let developmentPorts :=
    "$\x7bWP_ENV_PORT:-" ++ toString config.development.port ++ "\x7d:80"
  let testsPorts :=
    "$\x7bWP_ENV_TESTS_PORT:-" ++ toString config.tests.port ++ "\x7d:80"
  { mysql := { ports := ["3306"], volumes := ["mysql:/var/lib/mysql"] }
    wordpress := { ports := [developmentPorts], volumes := developmentMounts }
    testsWordpress := { ports := [testsPorts], volumes := testsMounts }
    cli := { ports := [], volumes := developmentMounts }
    testsCli := { ports := [], volumes := testsMounts }
    phpunit :=
      { ports := []
        volumes := testsMounts ++ ["phpunit-uploads:/var/www/html/wp-content/uploads"] }
    volumes :=
      (if config.coreSource = none then ["wordpress", "tests-wordpress"] else []) ++
        ["mysql", "phpunit-uploads"] }

/-! ## `start` orchestration (lib/commands/start.js)

`start` is modelled as a function producing a structured trace of the
external actions it performs, together with its overall outcome and the
cache state it leaves behind.  The fallible steps — the database
connection checks and the per-environment WordPress configuration — are
parameterised by oracles giving the outcome of each attempt.  External
operations the claims do not distinguish (docker-compose invocations,
directory setup, the download set) appear as single atomic actions. -/

/-- The two environments. -/
inductive EnvId where
  | development
  | tests
deriving DecidableEq, Repr

/-- The external actions `start` performs, in the order the code issues
them.  `checkDatabaseConnection i ok` is the `i`-th connection attempt
(0 = the initial try, 1.. = the retry loop) with its outcome;
`configureWordPress e i ok` is attempt `i` of environment `e`'s
configuration step. -/
inductive Act where
  | stopContainers
  | upMysql
  | downloadSourcesAct
  | setupWordPressDirectories
  | upWordPressBoth
  | makeContentDirectoriesWritable (e : EnvId)
  | checkDatabaseConnection (i : Nat) (ok : Bool)
  | sleepMs (ms : Nat)
  | configureWordPress (e : EnvId) (i : Nat) (ok : Bool)
  | setCache (hash : Nat)
deriving DecidableEq, Repr

/-- A structured trace: sequential composition and binary parallel
composition (`Promise.all` of two tasks; per spec §5 a failure in one
branch does not cancel the other, so both branches' traces are complete). -/
inductive Tr where
  | nil
  | atom (a : Act)
  | seqT (x y : Tr)
  | parT (x y : Tr)
deriving DecidableEq, Repr

/-- The events of a trace, flattened in program order (parallel branches
listed left-to-right). -/
def Tr.events : Tr → List Act
  | .nil => []
  | .atom a => [a]
  | .seqT x y => x.events ++ y.events
  | .parT x y => x.events ++ y.events

/-- A linear trace as a `Tr`. -/
def Tr.ofActs : List Act → Tr
  | [] => .nil
  | a :: rest => .seqT (.atom a) (Tr.ofActs rest)

/-- Modelled from the spec: `lib/retry.js` is not among the provided
sources.  Spec §9: "a generic `retry(operation, maxAttempts, delay)`
combinator returning a result-or-exhausted outcome"; §4.5: "retry up to 30
times at 1-second intervals".  `retryActs mk f delay times i` attempts
`f i, f (i+1), …`, at most `times` attempts in all, sleeping `delay`
milliseconds between consecutive attempts, and returns the linear trace of
attempts (rendered through `mk`) together with whether some attempt
succeeded. -/
def retryActs (mk : Nat → Bool → Act) (f : Nat → Bool) (delay : Nat) :
    Nat → Nat → List Act × Bool
  | 0, _ => ([], false)
  | times + 1, i =>
    if f i then ([mk i true], true)
    else if times = 0 then ([mk i false], false)
    else
      let r := retryActs mk f delay times (i + 1)
      (mk i false :: Act.sleepMs delay :: r.1, r.2)

/-- Modelled from the spec: `didCacheChange`/`setCache` live in
`lib/cache.js`, which is not among the provided sources.  Spec §4.5:
compare the configuration checksum "against a previously cached checksum
for this work directory"; spec §3: "absence of an entry is equivalent to
'value unknown'", hence counts as changed. -/
def didCacheChange (hash : Nat) (cached : Option Nat) : Bool :=
  !(cached == some hash)

/-- The database phase of `start` (lib/commands/start.js, lines 115–126):
try `checkDatabaseConnection` once; on failure retry it up to 30 times at
1000 ms intervals and, once connectivity succeeds, sleep a fixed 4000 ms
settle delay.  `dbOk i` is the outcome of the `i`-th connection attempt.
Returns the linear trace and whether the phase succeeded. -/
def dbPhase (dbOk : Nat → Bool) : List Act × Bool :=
  if dbOk 0 then ([Act.checkDatabaseConnection 0 true], true)
  else
    let r := retryActs Act.checkDatabaseConnection dbOk 1000 30 1
    if r.2 then
      (Act.checkDatabaseConnection 0 false :: r.1 ++ [Act.sleepMs 4000], true)
    else
      (Act.checkDatabaseConnection 0 false :: r.1, false)

/-- One environment's configuration retries (lib/commands/start.js,
lines 130–135): `retry( () => configureWordPress( env, … ), { times: 2 } )`.
The retry delay for this call is the combinator's default, which the spec
does not fix, so it stays a parameter `d`. -/
def configureRetry (e : EnvId) (cfgOk : EnvId → Nat → Bool) (d : Nat) :
    List Act × Bool :=
  retryActs (Act.configureWordPress e) (cfgOk e) d 2 0

/-- The configuration phase of `start` (lib/commands/start.js,
lines 129–136): both environments' configuration retries run concurrently
under `Promise.all`; the phase succeeds iff both succeed. -/
def configurePhase (cfgOk : EnvId → Nat → Bool) (d : Nat) : Tr × Bool :=
  let cd := configureRetry EnvId.development cfgOk d
  let ct := configureRetry EnvId.tests cfgOk d
  (Tr.parT (Tr.ofActs cd.1) (Tr.ofActs ct.1), cd.2 && ct.2)

/-- The result of a `start` invocation: the trace of external actions, the
overall outcome, and the value of the cached configuration checksum after
the invocation. -/
structure StartOutcome where
  trace : Tr
  ok : Bool
  cacheAfter : Option Nat
deriving Repr

/-- `start` (lib/commands/start.js, lines 45–145), as a trace function.

* `update` — the `--update` flag;
* `cached` — the cached configuration checksum under the work directory
  (`none` when absent);
* `configHash` — `md5( config )`, the checksum of the resolved
  configuration (`lib/md5.js` is external);
* `dbOk` — outcome oracle for the database connection attempts;
* `cfgOk` — outcome oracle for each environment's configuration attempts;
* `d` — the configuration retries' delay (see `configureRetry`).

Sequence: when re-provisioning, stop the containers first; then
`Promise.all` of bringing up `mysql` and (when re-provisioning) the source
downloads; then (when re-provisioning) `setupWordPressDirectories`; then
bring up the `wordpress` and `tests-wordpress` services; then, only when
re-provisioning: `makeContentDirectoriesWritable` for both environments
when `config.coreSource === null`, the database phase, the configuration
phase, and on full success `setCache` with the new checksum. -/
def startTr (config : WPConfig) (update : Bool) (cached : Option Nat)
    (configHash : Nat) (dbOk : Nat → Bool) (cfgOk : EnvId → Nat → Bool)
    (d : Nat) : StartOutcome :=
  let shouldConfigureWp := update || didCacheChange configHash cached
  let pre : Tr := if shouldConfigureWp then Tr.atom Act.stopContainers else Tr.nil
  let upDl : Tr :=
    Tr.parT (Tr.atom Act.upMysql)
      (if shouldConfigureWp then Tr.atom Act.downloadSourcesAct else Tr.nil)
  let setupDirs : Tr :=
    if shouldConfigureWp then Tr.atom Act.setupWordPressDirectories else Tr.nil
  let upWp : Tr := Tr.atom Act.upWordPressBoth
  if shouldConfigureWp then
    let writable : Tr :=
      if config.coreSource = none then
        Tr.parT (Tr.atom (Act.makeContentDirectoriesWritable EnvId.development))
          (Tr.atom (Act.makeContentDirectoriesWritable EnvId.tests))
      else Tr.nil
    let db := dbPhase dbOk
    if db.2 then
      let cfg := configurePhase cfgOk d
      if cfg.2 then
        { trace :=
            Tr.seqT pre (Tr.seqT upDl (Tr.seqT setupDirs (Tr.seqT upWp
              (Tr.seqT writable (Tr.seqT (Tr.ofActs db.1)
                (Tr.seqT cfg.1 (Tr.atom (Act.setCache configHash))))))))
          ok := true
          cacheAfter := some configHash }
      else
        { trace :=
            Tr.seqT pre (Tr.seqT upDl (Tr.seqT setupDirs (Tr.seqT upWp
              (Tr.seqT writable (Tr.seqT (Tr.ofActs db.1) cfg.1)))))
          ok := false
          cacheAfter := cached }
    else
      { trace :=
          Tr.seqT pre (Tr.seqT upDl (Tr.seqT setupDirs (Tr.seqT upWp
            (Tr.seqT writable (Tr.ofActs db.1)))))
        ok := false
        cacheAfter := cached }
  else
    { trace := Tr.seqT pre (Tr.seqT upDl (Tr.seqT setupDirs upWp))
      ok := true
      cacheAfter := cached }

/-! ## Auxiliary predicates and sample data -/

/-- The environment configuration selected by an `EnvId`. -/
def WPConfig.envConfig (config : WPConfig) : EnvId → WPServiceConfig
  | .development => config.development
  | .tests => config.tests

/-- A string without a colon (the character separating the host and
container sides of a docker volume-mount string). -/
def noColon (s : String) : Prop := ':' ∉ s.data

instance (s : String) : Decidable (noColon s) := by
  unfold noColon; infer_instance

/-- Modelled from the spec: the source-descriptor resolver of
`lib/config.js` is not among the provided sources.  Spec §3:
"destinationPath is a pure function of (type, url, ref) — identical
inputs always map to the identical path, enabling deduplication and
idempotent re-acquisition"; §4.1 gives `destinationPath =
workDir/<stable-hash-of-url-and-ref>` (git) and
`workDir/<stable-hash-of-url>` (zip).  A configuration is
resolver-consistent when any two of its downloadable sources sharing a
destination path share a url — the consequence of destination paths
being a collision-free stable hash of (type, url, ref). -/
def ResolverConsistent (config : WPConfig) : Prop :=
  ∀ s ∈ downloadedSources config, ∀ t ∈ downloadedSources config,
    s.path = t.path → s.url = t.url

instance (config : WPConfig) : Decidable (ResolverConsistent config) := by
  unfold ResolverConsistent; infer_instance

/-- The skip condition asserted by claim C4 for
`makeContentDirectoriesWritable`: read literally, an environment's step
is skipped exactly when that environment's own core is "a local/bundled
source the user already owns", i.e. a local source or the bundled
default (`null` core). -/
def claimSkipsWritable (config : WPConfig) (e : EnvId) : Bool :=
  match (config.envConfig e).coreSource with
  | none => true
  | some s => s.type == SourceType.local

/-- Whether an action is a database connection attempt. -/
def Act.isDbCheck : Act → Bool
  | .checkDatabaseConnection _ _ => true
  | _ => false

/-- Whether an action is a configuration attempt of environment `e`. -/
def Act.isConfigure (e : EnvId) : Act → Bool
  | .configureWordPress e' _ _ => e' == e
  | _ => false

/-- Sample local plugin source (url-less; never downloaded). -/
def sampleLocalPlugin : WPSource :=
  { type := SourceType.local, url := none, ref := none,
    path := "/home/user/my-plugin", testsPath := "", basename := "my-plugin" }

/-- Sample git source at the default ref. -/
def sampleGitMaster : WPSource :=
  { type := SourceType.git, url := some "https://github.com/WordPress/WordPress.git",
    ref := some "master", path := "/wd/aaa", testsPath := "", basename := "WordPress" }

/-- Sample git source: same repository url as `sampleGitMaster`, different
ref, hence a different destination path. -/
def sampleGitTag : WPSource :=
  { type := SourceType.git, url := some "https://github.com/WordPress/WordPress.git",
    ref := some "5.2.0", path := "/wd/bbb", testsPath := "", basename := "WordPress" }

/-- Sample zip source. -/
def sampleZip : WPSource :=
  { type := SourceType.zip, url := some "https://wordpress.org/wordpress-5.4.zip",
    ref := none, path := "/wd/ccc", testsPath := "", basename := "wordpress-5.4" }

/-- Sample local core source with a distinct tests-variant path. -/
def sampleLocalCore : WPSource :=
  { type := SourceType.local, url := none, ref := none,
    path := "/home/user/core", testsPath := "/wd/tests-wordpress", basename := "core" }

/-- Sample resolved configuration exercising the deduplication: the same
repository url appears as a plugin (at a tag) and as both cores (at
master), and the same zip theme appears in both environments. -/
def sampleConfig : WPConfig :=
  { coreSource := some sampleGitMaster
    development :=
      { port := 8888, coreSource := some sampleGitMaster,
        pluginSources := [sampleLocalPlugin, sampleGitTag],
        themeSources := [sampleZip], mappings := [] }
    tests :=
      { port := 8889, coreSource := some sampleGitMaster,
        pluginSources := [sampleLocalPlugin],
        themeSources := [sampleZip], mappings := [] }
    configDirectoryPath := "/home/user/project" }

/-- Sample configuration for claim C4: no top-level core source, but the
tests environment's own core overridden to a local source. -/
def c4Config : WPConfig :=
  { coreSource := none
    development :=
      { port := 8888, coreSource := none,
        pluginSources := [sampleLocalPlugin], themeSources := [], mappings := [] }
    tests :=
      { port := 8889, coreSource := some sampleLocalCore,
        pluginSources := [sampleLocalPlugin], themeSources := [], mappings := [] }
    configDirectoryPath := "/home/user/project" }

/-- Sample configuration with a shared local core in both environments
(claim C3) and a top-level core set to it as well. -/
def sharedCoreConfig : WPConfig :=
  { coreSource := some sampleLocalCore
    development :=
      { port := 8888, coreSource := some sampleLocalCore,
        pluginSources := [sampleLocalPlugin], themeSources := [], mappings := [] }
    tests :=
      { port := 8889, coreSource := some sampleLocalCore,
        pluginSources := [sampleLocalPlugin], themeSources := [],
        mappings := [("wp-content/mu-plugins", sampleLocalPlugin)] }
    configDirectoryPath := "/home/user/project" }

/-- Sample directory listing for the shared local core. -/
def sampleReadDir : String → List String :=
  fun p =>
    if p = "/home/user/core" then
      ["index.php", "wp-admin", "wp-config.php", "wp-config-sample.php",
       "wp-content", "wp-includes"]
    else []

/-- Sample database oracle: the first two connection attempts fail, the
third succeeds. -/
def dbOkSample : Nat → Bool := fun i => decide (2 ≤ i)

/-- Sample configuration oracle: every attempt succeeds. -/
def cfgOkSample : EnvId → Nat → Bool := fun _ _ => true

/-! ## Theorems

### Lemmas about the `addSource` deduplication -/

theorem Tr.events_nil : Tr.nil.events = [] := rfl

theorem Tr.events_atom (a : Act) : (Tr.atom a).events = [a] := rfl

theorem Tr.events_seqT (x y : Tr) : (Tr.seqT x y).events = x.events ++ y.events := rfl

theorem Tr.events_parT (x y : Tr) : (Tr.parT x y).events = x.events ++ y.events := rfl

theorem Tr.events_ofActs (l : List Act) : (Tr.ofActs l).events = l := by
  induction l with
  | nil => rfl
  | cons a rest ih => simp [Tr.ofActs, Tr.events, ih]

/-- Unfolding: an absent (`null`) source is ignored. -/
theorem addSources_cons_null (rest : List (Option WPSource)) (seen : List String) :
    addSources (none :: rest) seen = addSources rest seen := rfl

/-- Unfolding: a source without a `url` field is ignored. -/
theorem addSources_cons_nourl (t : WPSource) (rest : List (Option WPSource))
    (seen : List String) (h : t.url = none) :
    addSources (some t :: rest) seen = addSources rest seen := by
  rw [addSources, h]

/-- Unfolding: a source with a `url` is kept iff the url is non-empty and
unseen, in which case the url is added to the seen set. -/
theorem addSources_cons_url (t : WPSource) (rest : List (Option WPSource))
    (seen : List String) (u : String) (h : t.url = some u) :
    addSources (some t :: rest) seen =
      if u = "" then addSources rest seen
      else if u ∈ seen then addSources rest seen
      else t :: addSources rest (u :: seen) := by
  rw [addSources, h]

/-- Every source the `addSource` loop keeps has a non-empty `url` that was
not in the seen set the loop started from. -/
theorem addSources_mem_url :
    ∀ (l : List (Option WPSource)) (seen : List String) (s : WPSource),
      s ∈ addSources l seen → ∃ u, s.url = some u ∧ u ≠ "" ∧ u ∉ seen := by
  intro l
  induction l with
  | nil => intro seen s hs; simp [addSources] at hs
  | cons o rest ih =>
    intro seen s hs
    match o with
    | none => exact ih seen s hs
    | some t =>
      cases hu : t.url with
      | none =>
        rw [addSources_cons_nourl t rest seen hu] at hs
        exact ih seen s hs
      | some v =>
        rw [addSources_cons_url t rest seen v hu] at hs
        by_cases hv : v = ""
        · rw [if_pos hv] at hs; exact ih seen s hs
        · rw [if_neg hv] at hs
          by_cases hseen : v ∈ seen
          · rw [if_pos hseen] at hs; exact ih seen s hs
          · rw [if_neg hseen] at hs
            rcases List.mem_cons.mp hs with h | h
            · exact ⟨v, h ▸ hu, hv, hseen⟩
            · obtain ⟨u, h1, h2, h3⟩ := ih (v :: seen) s h
              exact ⟨u, h1, h2, fun hm => h3 (List.mem_cons_of_mem _ hm)⟩

/-- The `addSource` loop keeps at most one source per url, and none at all
whose url is already in the seen set. -/
theorem addSources_countP_url (u : String) :
    ∀ (l : List (Option WPSource)) (seen : List String),
      (u ∈ seen → (addSources l seen).countP (fun s => s.url == some u) = 0) ∧
      (addSources l seen).countP (fun s => s.url == some u) ≤ 1 := by
  intro l
  induction l with
  | nil => intro seen; simp [addSources]
  | cons o rest ih =>
    intro seen
    match o with
    | none => simpa [addSources_cons_null] using ih seen
    | some t =>
      cases hu : t.url with
      | none => simpa [addSources_cons_nourl t rest seen hu] using ih seen
      | some v =>
        rw [addSources_cons_url t rest seen v hu]
        by_cases hv : v = ""
        · simpa [hv] using ih seen
        · by_cases hseen : v ∈ seen
          · simpa [hv, hseen] using ih seen
          · rw [if_neg hv, if_neg hseen]
            rw [List.countP_cons]
            by_cases hvu : v = u
            · subst hvu
              have h0 : (addSources rest (v :: seen)).countP
                  (fun s => s.url == some v) = 0 :=
                (ih (v :: seen)).1 (List.mem_cons_self v seen)
              constructor
              · intro huseen; exact absurd huseen hseen
              · simp [h0, hu]
            · have hne : (t.url == some u) = false := by
                rw [hu]
                exact beq_eq_false_iff_ne.mpr (fun hh => hvu (Option.some.inj hh))
              constructor
              · intro huseen
                have h0 : (addSources rest (v :: seen)).countP
                    (fun s => s.url == some u) = 0 :=
                  (ih (v :: seen)).1 (List.mem_cons_of_mem _ huseen)
                simp [h0, hne]
              · have hle := (ih (v :: seen)).2
                simp [hne]
                exact hle

/-- First-wins: a source kept by the `addSource` loop with url `u` is the
first source of the traversal (null entries dropped) whose url is `u`. -/
theorem addSources_find_first (u : String) :
    ∀ (l : List (Option WPSource)) (seen : List String) (t : WPSource),
      u ∉ seen → t ∈ addSources l seen → t.url = some u →
      (l.filterMap id).find? (fun s => s.url == some u) = some t := by
  intro l
  induction l with
  | nil => intro seen t _ ht; simp [addSources] at ht
  | cons o rest ih =>
    intro seen t hu ht htu
    match o with
    | none =>
      rw [addSources_cons_null] at ht
      show (rest.filterMap id).find? (fun s => s.url == some u) = some t
      exact ih seen t hu ht htu
    | some s =>
      show (s :: rest.filterMap id).find? (fun x => x.url == some u) = some t
      cases hsu : s.url with
      | none =>
        rw [addSources_cons_nourl s rest seen hsu] at ht
        have hne : ¬ ((fun x : WPSource => x.url == some u) s = true) := by
          simp only [hsu]; simp
        rw [List.find?_cons_of_neg (rest.filterMap id) hne]
        exact ih seen t hu ht htu
      | some v =>
        rw [addSources_cons_url s rest seen v hsu] at ht
        by_cases hv : v = ""
        · rw [if_pos hv] at ht
          have hne' : u ≠ "" := by
            obtain ⟨u', h1, h2, _⟩ := addSources_mem_url rest seen t ht
            rw [htu] at h1; cases h1; exact h2
          have hne : ¬ ((fun x : WPSource => x.url == some u) s = true) := by
            simp only [hsu, beq_iff_eq, Option.some.injEq]
            exact fun h => hne' (by rw [← h, hv])
          rw [List.find?_cons_of_neg (rest.filterMap id) hne]
          exact ih seen t hu ht htu
        · rw [if_neg hv] at ht
          by_cases hseen : v ∈ seen
          · rw [if_pos hseen] at ht
            have hvu : v ≠ u := fun h => hu (h ▸ hseen)
            have hne : ¬ ((fun x : WPSource => x.url == some u) s = true) := by
              simp only [hsu, beq_iff_eq, Option.some.injEq]
              exact hvu
            rw [List.find?_cons_of_neg (rest.filterMap id) hne]
            exact ih seen t hu ht htu
          · rw [if_neg hseen] at ht
            rcases List.mem_cons.mp ht with h | h
            · subst h
              have hvu : v = u := by rw [htu] at hsu; cases hsu; rfl
              subst hvu
              have hpos : ((fun x : WPSource => x.url == some v) t = true) := by
                simp only [htu, beq_iff_eq]
              rw [List.find?_cons_of_pos (rest.filterMap id) hpos]
            · obtain ⟨u', h1, _, h3⟩ := addSources_mem_url rest (v :: seen) t h
              rw [htu] at h1; cases h1
              have hvu : v ≠ u := fun hh => h3 (hh ▸ List.mem_cons_self v seen)
              have hne : ¬ ((fun x : WPSource => x.url == some u) s = true) := by
                simp only [hsu, beq_iff_eq, Option.some.injEq]
                exact hvu
              rw [List.find?_cons_of_neg (rest.filterMap id) hne]
              exact ih (v :: seen) t (by
                intro hm
                rcases List.mem_cons.mp hm with hm | hm
                · exact hvu hm.symm
                · exact hu hm) h htu

/-! ### Claim C9 — deduplication is keyed solely by `url` -/

/-- C9: in `downloadSources`, deduplication is keyed solely by a
descriptor's `url` field: every descriptor passed to `downloadSource` has
a `url`; at most one descriptor per url is passed; a passed descriptor
with url `u` is the first descriptor of the traversal with url `u` (so
for two descriptors with equal url but different ref, only the
first-encountered one is downloaded); and a descriptor lacking a `url`
field (such as a local source) is never passed to `downloadSource`. -/
theorem downloadSources_dedup_by_url_only (config : WPConfig) :
    (∀ s ∈ downloadedSources config, s.url.isSome = true) ∧
    (∀ u : String,
      (downloadedSources config).countP (fun s => s.url == some u) ≤ 1) ∧
    (∀ (u : String) (t : WPSource), t ∈ downloadedSources config →
      t.url = some u →
      ((sourceTraversal config).filterMap id).find?
        (fun x => x.url == some u) = some t) ∧
    (∀ s : WPSource, s.url = none → s ∉ downloadedSources config) := by
  refine ⟨?_, ?_, ?_, ?_⟩
  · intro s hs
    obtain ⟨u, h1, _, _⟩ := addSources_mem_url _ _ s hs
    simp [h1]
  · intro u
    exact (addSources_countP_url u (sourceTraversal config) []).2
  · intro u t ht htu
    exact addSources_find_first u (sourceTraversal config) [] t (by simp) ht htu
  · intro s hnone hs
    obtain ⟨u, h1, _, _⟩ := addSources_mem_url _ _ s hs
    rw [hnone] at h1
    cases h1

/-- Witness for C9 at `sampleConfig`: the shared repository url is
downloaded at most once, the descriptor actually downloaded for it is the
first-encountered one (the plugin at the tag, not the core at master),
and the url-less local plugin is not downloaded. -/
theorem downloadSources_dedup_by_url_only_witness :
    (downloadedSources sampleConfig).countP
        (fun s => s.url == some "https://github.com/WordPress/WordPress.git") ≤ 1 ∧
    ((sourceTraversal sampleConfig).filterMap id).find?
        (fun x => x.url == some "https://github.com/WordPress/WordPress.git") =
      some sampleGitTag ∧
    sampleLocalPlugin ∉ downloadedSources sampleConfig := by
  have h := downloadSources_dedup_by_url_only sampleConfig
  refine ⟨h.2.1 _, h.2.2.1 _ sampleGitTag (by decide) (by decide),
    h.2.2.2 sampleLocalPlugin (by decide)⟩

/-! ### Claim C2 — acquisition at most once per destination path -/

/-- C2: for a resolver-consistent configuration (destination paths are an
injective stable hash of (type, url, ref), so sources sharing a
destination share a url — see `ResolverConsistent`), `downloadSources`
passes at most one descriptor per resolved destination path to
`downloadSource`, across both environments and across the core, plugin
and theme fields. -/
theorem acquisition_at_most_once_per_destination (config : WPConfig)
    (hres : ResolverConsistent config) :
    ∀ p : String,
      (downloadedSources config).countP (fun s => s.path == p) ≤ 1 := by
  intro p
  by_cases hex : ∃ t ∈ downloadedSources config, t.path = p
  · obtain ⟨t, htmem, htp⟩ := hex
    obtain ⟨u, hu, _, _⟩ := addSources_mem_url _ _ t htmem
    have hmono : (downloadedSources config).countP (fun s => s.path == p) ≤
        (downloadedSources config).countP (fun s => s.url == some u) := by
      apply List.countP_mono_left
      intro s hs hsp
      have hsp' : s.path = p := by simpa using hsp
      have hurl : s.url = t.url := hres s hs t htmem (by rw [hsp', htp])
      simp [hurl, hu]
    exact le_trans hmono ((addSources_countP_url u (sourceTraversal config) []).2)
  · have h0 : (downloadedSources config).countP (fun s => s.path == p) = 0 := by
      apply List.countP_eq_zero.mpr
      intro s hs
      simp only [beq_iff_eq]
      exact fun hp => hex ⟨s, hs, hp⟩
    omega

/-- Witness for C2 at `sampleConfig`, whose resolver-consistency is
checked by evaluation. -/
theorem acquisition_at_most_once_per_destination_witness :
    (downloadedSources sampleConfig).countP (fun s => s.path == "/wd/bbb") ≤ 1 ∧
    (downloadedSources sampleConfig).countP (fun s => s.path == "/wd/ccc") ≤ 1 :=
  ⟨acquisition_at_most_once_per_destination sampleConfig (by decide) "/wd/bbb",
   acquisition_at_most_once_per_destination sampleConfig (by decide) "/wd/ccc"⟩

/-! ### Claim C8 — port bindings are env-var overrides with defaults -/

/-- C8: for every resolved configuration, the generated external port
binding of the development service is the string
`${WP_ENV_PORT:-<development port>}:80` and the tests service's is
`${WP_ENV_TESTS_PORT:-<tests port>}:80`: the configured port appears only
as the literal default of an environment-variable substitution, never as
a hard-coded binding. -/
theorem generated_ports_are_env_overrides (readDir : String → List String)
    (config : WPConfig) :
    (buildDockerComposeConfig readDir config).wordpress.ports =
      ["$\x7bWP_ENV_PORT:-" ++ toString config.development.port ++ "\x7d:80"] ∧
    (buildDockerComposeConfig readDir config).testsWordpress.ports =
      ["$\x7bWP_ENV_TESTS_PORT:-" ++ toString config.tests.port ++ "\x7d:80"] :=
  ⟨rfl, rfl⟩

/-! ### Claim C10 — named core volumes keyed to the top-level core -/

/-- C10: the named volumes `wordpress` and `tests-wordpress` are declared
in the top-level volumes section iff the top-level `config.coreSource` is
null, while each service's core mount falls back to those named-volume
strings based on the environment's own `coreSource`; a per-environment
core override therefore makes the two disagree (witnessed by a
configuration with a null top-level core but a local development core:
the volumes are declared although the development service does not mount
the `wordpress` named volume). -/
theorem named_core_volumes_iff_top_core_null (readDir : String → List String)
    (config : WPConfig) :
    ("wordpress" ∈ (buildDockerComposeConfig readDir config).volumes ↔
      config.coreSource = none) ∧
    ("tests-wordpress" ∈ (buildDockerComposeConfig readDir config).volumes ↔
      config.coreSource = none) ∧
    (∃ cfg : WPConfig, cfg.coreSource = none ∧
      cfg.tests.coreSource ≠ none ∧
      "tests-wordpress" ∈ (buildDockerComposeConfig readDir cfg).volumes ∧
      (buildDockerComposeConfig readDir cfg).testsWordpress.volumes.head? ≠
        some "tests-wordpress:/var/www/html") := by
  refine ⟨?_, ?_, ?_⟩
  · by_cases h : config.coreSource = none
    · simp [buildDockerComposeConfig, h]
    · simp only [buildDockerComposeConfig, if_neg h]
      simpa using h
  · by_cases h : config.coreSource = none
    · simp [buildDockerComposeConfig, h]
    · simp only [buildDockerComposeConfig, if_neg h]
      simpa using h
  · refine ⟨c4Config, rfl, by decide, ?_, ?_⟩
    · simp [buildDockerComposeConfig, c4Config]
    · simp [buildDockerComposeConfig, getMounts, hasSameCoreSource, c4Config,
        sampleLocalCore, sampleLocalPlugin]

/-- Witness for C10: with a configured top-level core (`sampleConfig`)
the `wordpress` named volume is not declared; with a null top-level core
(`c4Config`) it is. -/
theorem named_core_volumes_iff_top_core_null_witness :
    "wordpress" ∉ (buildDockerComposeConfig sampleReadDir sampleConfig).volumes ∧
    "wordpress" ∈ (buildDockerComposeConfig sampleReadDir c4Config).volumes := by
  constructor
  · intro hmem
    have h :=
      (named_core_volumes_iff_top_core_null sampleReadDir sampleConfig).1.mp hmem
    exact absurd h (by decide)
  · exact (named_core_volumes_iff_top_core_null sampleReadDir c4Config).1.mpr rfl

/-! ### Lemmas about `retryActs`, `dbPhase` and `startTr` -/

/-- Every action in a retry trace is an attempt or an inter-attempt
sleep of the configured delay. -/
theorem retryActs_mem (mk : Nat → Bool → Act) (f : Nat → Bool) (delay : Nat) :
    ∀ (n i : Nat), ∀ a ∈ (retryActs mk f delay n i).1,
      (∃ j b, a = mk j b) ∨ a = Act.sleepMs delay := by
  intro n
  induction n with
  | zero => intro i a ha; simp [retryActs] at ha
  | succ m ih =>
    intro i a ha
    by_cases hf : f i
    · simp [retryActs, hf] at ha
      exact Or.inl ⟨i, true, ha⟩
    · by_cases hm : m = 0
      · simp [retryActs, hf, hm] at ha
        exact Or.inl ⟨i, false, ha⟩
      · simp only [retryActs, if_neg hf, if_neg hm] at ha
        rcases List.mem_cons.mp ha with h | h
        · exact Or.inl ⟨i, false, h⟩
        · rcases List.mem_cons.mp h with h' | h'
          · exact Or.inr h'
          · exact ih (i + 1) a h'

/-- A retry trace contains at most `n` attempt actions, counted by any
predicate that is false on the inter-attempt sleep. -/
theorem retryActs_countP_le (p : Act → Bool) (mk : Nat → Bool → Act)
    (f : Nat → Bool) (delay : Nat) (hd : p (Act.sleepMs delay) = false) :
    ∀ n i, (retryActs mk f delay n i).1.countP p ≤ n := by
  intro n
  induction n with
  | zero => intro i; simp [retryActs]
  | succ m ih =>
    intro i
    by_cases hf : f i
    · simp only [retryActs, if_pos hf]
      have : List.countP p [mk i true] ≤ 1 := by
        rw [List.countP_cons]
        simp [List.countP_nil]
        split <;> omega
      omega
    · by_cases hm : m = 0
      · simp only [retryActs, if_neg hf, if_pos hm]
        have : List.countP p [mk i false] ≤ 1 := by
          rw [List.countP_cons]
          simp [List.countP_nil]
          split <;> omega
        omega
      · simp only [retryActs, if_neg hf, if_neg hm]
        rw [List.countP_cons, List.countP_cons, hd]
        have hih := ih (i + 1)
        have hif : (if p (mk i false) = true then 1 else 0) ≤ 1 := by
          split <;> omega
        simp only [Bool.false_eq_true, if_false, add_zero]
        omega

/-- Every action in the database phase is a connection attempt or a
sleep. -/
theorem dbPhase_mem (dbOk : Nat → Bool) :
    ∀ a ∈ (dbPhase dbOk).1,
      (∃ j b, a = Act.checkDatabaseConnection j b) ∨ ∃ ms, a = Act.sleepMs ms := by
  intro a ha
  by_cases h0 : dbOk 0
  · simp [dbPhase, h0] at ha
    exact Or.inl ⟨0, true, ha⟩
  · simp only [dbPhase, if_neg h0] at ha
    by_cases hr : (retryActs Act.checkDatabaseConnection dbOk 1000 30 1).2
    · rw [if_pos hr] at ha
      rcases List.mem_cons.mp ha with h | h
      · exact Or.inl ⟨0, false, h⟩
      · rcases List.mem_append.mp h with h' | h'
        · rcases retryActs_mem _ _ _ 30 1 a h' with ⟨j, b, hjb⟩ | hs
          · exact Or.inl ⟨j, b, hjb⟩
          · exact Or.inr ⟨1000, hs⟩
        · simp at h'
          exact Or.inr ⟨4000, h'⟩
    · rw [if_neg hr] at ha
      rcases List.mem_cons.mp ha with h | h
      · exact Or.inl ⟨0, false, h⟩
      · rcases retryActs_mem _ _ _ 30 1 a h with ⟨j, b, hjb⟩ | hs
        · exact Or.inl ⟨j, b, hjb⟩
        · exact Or.inr ⟨1000, hs⟩

/-- Every action in one environment's configuration retries is a
configuration attempt of that environment or a sleep. -/
theorem configureRetry_mem (e : EnvId) (cfgOk : EnvId → Nat → Bool) (d : Nat) :
    ∀ a ∈ (configureRetry e cfgOk d).1,
      (∃ j b, a = Act.configureWordPress e j b) ∨ a = Act.sleepMs d := by
  intro a ha
  exact retryActs_mem _ _ _ 2 0 a ha

/-- The full event list of a re-provisioning `start` run
(`shouldConfigureWp` true). -/
theorem startTr_events (config : WPConfig) (update : Bool) (cached : Option Nat)
    (configHash : Nat) (dbOk : Nat → Bool) (cfgOk : EnvId → Nat → Bool) (d : Nat)
    (hs : (update || didCacheChange configHash cached) = true) :
    (startTr config update cached configHash dbOk cfgOk d).trace.events =
      [Act.stopContainers, Act.upMysql, Act.downloadSourcesAct,
        Act.setupWordPressDirectories, Act.upWordPressBoth] ++
      (if config.coreSource = none then
        [Act.makeContentDirectoriesWritable EnvId.development,
          Act.makeContentDirectoriesWritable EnvId.tests] else []) ++
      (dbPhase dbOk).1 ++
      (if (dbPhase dbOk).2 then
        (configureRetry EnvId.development cfgOk d).1 ++
        (configureRetry EnvId.tests cfgOk d).1 ++
        (if (configureRetry EnvId.development cfgOk d).2 &&
            (configureRetry EnvId.tests cfgOk d).2 then
          [Act.setCache configHash] else [])
        else []) := by
  have hcfg2 : (configurePhase cfgOk d).2 =
      ((configureRetry EnvId.development cfgOk d).2 &&
        (configureRetry EnvId.tests cfgOk d).2) := rfl
  rw [startTr]
  simp only [hs, if_true]
  by_cases hdb : (dbPhase dbOk).2
  · simp only [hdb, if_true]
    by_cases hcfg : (configurePhase cfgOk d).2
    · have hcfg' := hcfg
      rw [hcfg2] at hcfg'
      simp only [hcfg, if_true, hcfg']
      by_cases hcore : config.coreSource = none <;>
        simp [hcore, configurePhase, Tr.events, Tr.events_ofActs]
    · have hcfg' : ((configureRetry EnvId.development cfgOk d).2 &&
          (configureRetry EnvId.tests cfgOk d).2) = false := by
        rw [← hcfg2]
        exact Bool.eq_false_iff.mpr hcfg
      rw [if_neg hcfg]
      simp only [hcfg']
      by_cases hcore : config.coreSource = none <;>
        simp [hcore, configurePhase, Tr.events, Tr.events_ofActs]
  · rw [if_neg hdb]
    simp only [Bool.eq_false_iff.mpr hdb]
    by_cases hcore : config.coreSource = none <;>
      simp [hcore, Tr.events, Tr.events_ofActs]

/-- A skipping `start` run (`shouldConfigureWp` false): services are
still brought up, nothing else happens, the invocation succeeds and the
cache is untouched. -/
theorem startTr_skip (config : WPConfig) (update : Bool) (cached : Option Nat)
    (configHash : Nat) (dbOk : Nat → Bool) (cfgOk : EnvId → Nat → Bool) (d : Nat)
    (hs : (update || didCacheChange configHash cached) = false) :
    (startTr config update cached configHash dbOk cfgOk d).trace.events =
        [Act.upMysql, Act.upWordPressBoth] ∧
      (startTr config update cached configHash dbOk cfgOk d).ok = true ∧
      (startTr config update cached configHash dbOk cfgOk d).cacheAfter = cached := by
  rw [startTr]
  simp only [hs, Bool.false_eq_true, if_false]
  simp [Tr.events]

/-- The cached checksum after a `start` run: replaced by the new checksum
exactly when re-provisioning ran and the database phase and both
environments' configuration retries succeeded; untouched otherwise. -/
theorem startTr_cacheAfter (config : WPConfig) (update : Bool)
    (cached : Option Nat) (configHash : Nat) (dbOk : Nat → Bool)
    (cfgOk : EnvId → Nat → Bool) (d : Nat) :
    (startTr config update cached configHash dbOk cfgOk d).cacheAfter =
      if (update || didCacheChange configHash cached) && (dbPhase dbOk).2 &&
          (configureRetry EnvId.development cfgOk d).2 &&
          (configureRetry EnvId.tests cfgOk d).2
        then some configHash else cached := by
  have hcfg2 : (configurePhase cfgOk d).2 =
      ((configureRetry EnvId.development cfgOk d).2 &&
        (configureRetry EnvId.tests cfgOk d).2) := rfl
  rw [startTr]
  by_cases hs : (update || didCacheChange configHash cached)
  · simp only [hs, if_true, Bool.true_and]
    by_cases hdb : (dbPhase dbOk).2
    · simp only [hdb, if_true, Bool.true_and]
      by_cases hcfg : (configurePhase cfgOk d).2
      · have hcfg' := hcfg
        rw [hcfg2] at hcfg'
        simp only [hcfg, if_true]
        rw [Bool.and_eq_true] at hcfg'
        simp [hcfg'.1, hcfg'.2]
      · have hcfg' : ((configureRetry EnvId.development cfgOk d).2 &&
            (configureRetry EnvId.tests cfgOk d).2) = false := by
          rw [← hcfg2]
          exact Bool.eq_false_iff.mpr hcfg
        rw [if_neg hcfg]
        rcases Bool.and_eq_false_iff.mp hcfg' with h | h <;> simp [h]
    · rw [if_neg hdb]
      simp [Bool.eq_false_iff.mpr hdb]
  · rw [if_neg hs]
    simp [Bool.eq_false_iff.mpr hs]

/-- An action that is neither a connection attempt nor a sleep does not
occur in the database phase. -/
theorem notMem_dbPhase (dbOk : Nat → Bool) (a : Act)
    (h1 : ∀ j b, a ≠ Act.checkDatabaseConnection j b)
    (h2 : ∀ ms, a ≠ Act.sleepMs ms) :
    a ∉ (dbPhase dbOk).1 := by
  intro hm
  rcases dbPhase_mem dbOk a hm with ⟨j, b, hjb⟩ | ⟨ms, hms⟩
  · exact h1 j b hjb
  · exact h2 ms hms

/-- An action that is neither a configuration attempt of `e` nor a sleep
does not occur in environment `e`'s configuration retries. -/
theorem notMem_configureRetry (e : EnvId) (cfgOk : EnvId → Nat → Bool)
    (d : Nat) (a : Act)
    (h1 : ∀ j b, a ≠ Act.configureWordPress e j b)
    (h2 : ∀ ms, a ≠ Act.sleepMs ms) :
    a ∉ (configureRetry e cfgOk d).1 := by
  intro hm
  rcases configureRetry_mem e cfgOk d a hm with ⟨j, b, hjb⟩ | hms
  · exact h1 j b hjb
  · exact h2 d hms

/-! ### Claim C1 — unchanged checksum skips provisioning -/

/-- C1: a `start` invocation without `--update` whose resolved
configuration checksum equals the cached one invokes neither
`downloadSources` nor `setupWordPressDirectories` nor
`configureWordPress`, yet still brings up the mysql service and the two
WordPress services and reaches its success state. -/
theorem start_unchanged_checksum_skips_provisioning (config : WPConfig)
    (cached : Option Nat) (configHash : Nat) (dbOk : Nat → Bool)
    (cfgOk : EnvId → Nat → Bool) (d : Nat)
    (h : cached = some configHash) :
    (startTr config false cached configHash dbOk cfgOk d).ok = true ∧
    Act.downloadSourcesAct ∉
      (startTr config false cached configHash dbOk cfgOk d).trace.events ∧
    Act.setupWordPressDirectories ∉
      (startTr config false cached configHash dbOk cfgOk d).trace.events ∧
    (∀ e i b, Act.configureWordPress e i b ∉
      (startTr config false cached configHash dbOk cfgOk d).trace.events) ∧
    Act.upMysql ∈
      (startTr config false cached configHash dbOk cfgOk d).trace.events ∧
    Act.upWordPressBoth ∈
      (startTr config false cached configHash dbOk cfgOk d).trace.events := by
  subst h
  have hs : (false || didCacheChange configHash (some configHash)) = false := by
    simp [didCacheChange]
  obtain ⟨hev, hok, _⟩ :=
    startTr_skip config false (some configHash) configHash dbOk cfgOk d hs
  rw [hev] at *
  refine ⟨hok, by simp, by simp, fun e i b => by simp, by simp, by simp⟩

/-- Witness for C1 at concrete inputs (cached checksum `5`, resolved
checksum `5`). -/
theorem start_unchanged_checksum_skips_provisioning_witness :
    (startTr sampleConfig false (some 5) 5 dbOkSample cfgOkSample 0).ok = true ∧
    Act.downloadSourcesAct ∉
      (startTr sampleConfig false (some 5) 5 dbOkSample cfgOkSample 0).trace.events ∧
    Act.configureWordPress EnvId.tests 0 true ∉
      (startTr sampleConfig false (some 5) 5 dbOkSample cfgOkSample 0).trace.events ∧
    Act.upMysql ∈
      (startTr sampleConfig false (some 5) 5 dbOkSample cfgOkSample 0).trace.events := by
  have h := start_unchanged_checksum_skips_provisioning sampleConfig (some 5) 5
    dbOkSample cfgOkSample 0 rfl
  exact ⟨h.1, h.2.1, h.2.2.2.1 EnvId.tests 0 true, h.2.2.2.2.1⟩

/-! ### Claim C4 — when content directories are made writable -/

/-- C4 counterexample: at `c4Config` (null top-level core, tests core
overridden to a local source) the claim's skip condition holds for the
tests environment — its core is a local source the user owns — yet the
re-provisioning run executes `makeContentDirectoriesWritable` for tests,
because the code keys the step on the top-level `config.coreSource`
alone. -/
theorem writable_claim_counterexample :
    claimSkipsWritable c4Config EnvId.tests = true ∧
    Act.makeContentDirectoriesWritable EnvId.tests ∈
      (startTr c4Config true none 0 (fun _ => true) (fun _ _ => true) 0).trace.events := by
  decide

/-- C4 amended: during a re-provisioning run, the step that makes the
content directories writable runs for an environment exactly when the
top-level `config.coreSource` is null (the bundled default core); any
configured top-level core — whatever its type, and regardless of the
individual environments' core sources — skips the step for both
environments. -/
theorem writable_iff_top_core_null (config : WPConfig) (update : Bool)
    (cached : Option Nat) (configHash : Nat) (dbOk : Nat → Bool)
    (cfgOk : EnvId → Nat → Bool) (d : Nat) (e : EnvId)
    (hs : (update || didCacheChange configHash cached) = true) :
    (Act.makeContentDirectoriesWritable e ∈
        (startTr config update cached configHash dbOk cfgOk d).trace.events ↔
      config.coreSource = none) := by
  rw [startTr_events config update cached configHash dbOk cfgOk d hs]
  have hnotdb : Act.makeContentDirectoriesWritable e ∉ (dbPhase dbOk).1 :=
    notMem_dbPhase dbOk _ (fun j b hh => Act.noConfusion hh)
      (fun ms hh => Act.noConfusion hh)
  have hnotcd : Act.makeContentDirectoriesWritable e ∉
      (configureRetry EnvId.development cfgOk d).1 :=
    notMem_configureRetry _ cfgOk d _ (fun j b hh => Act.noConfusion hh)
      (fun ms hh => Act.noConfusion hh)
  have hnotct : Act.makeContentDirectoriesWritable e ∉
      (configureRetry EnvId.tests cfgOk d).1 :=
    notMem_configureRetry _ cfgOk d _ (fun j b hh => Act.noConfusion hh)
      (fun ms hh => Act.noConfusion hh)
  constructor
  · intro hmem
    by_contra hcore
    rw [if_neg hcore] at hmem
    rcases List.mem_append.mp hmem with hmem | hmem
    · rcases List.mem_append.mp hmem with hmem | hmem
      · rcases List.mem_append.mp hmem with hmem | hmem
        · simp at hmem
        · simp at hmem
      · exact hnotdb hmem
    · by_cases hdb : (dbPhase dbOk).2 = true
      · rw [if_pos hdb] at hmem
        rcases List.mem_append.mp hmem with hmem | hmem
        · rcases List.mem_append.mp hmem with hmem | hmem
          · exact hnotcd hmem
          · exact hnotct hmem
        · by_cases hcc : ((configureRetry EnvId.development cfgOk d).2 &&
              (configureRetry EnvId.tests cfgOk d).2) = true
          · rw [if_pos hcc] at hmem
            simp at hmem
          · rw [if_neg hcc] at hmem
            simp at hmem
      · rw [if_neg hdb] at hmem
        simp at hmem
  · intro hcore
    rw [if_pos hcore]
    cases e <;> simp

/-- Witness for C4's amended statement: with an update-forced run at
`c4Config` (null top-level core, local tests core) the step runs for
tests, and at `sharedCoreConfig` (non-null top-level core) it does not
run for development. -/
theorem writable_iff_top_core_null_witness :
    Act.makeContentDirectoriesWritable EnvId.tests ∈
      (startTr c4Config true none 0 dbOkSample cfgOkSample 0).trace.events ∧
    Act.makeContentDirectoriesWritable EnvId.development ∉
      (startTr sharedCoreConfig true none 0 dbOkSample cfgOkSample 0).trace.events := by
  constructor
  · exact (writable_iff_top_core_null c4Config true none 0 dbOkSample cfgOkSample 0
      EnvId.tests (by decide)).mpr rfl
  · intro hmem
    have h := (writable_iff_top_core_null sharedCoreConfig true none 0 dbOkSample
      cfgOkSample 0 EnvId.development (by decide)).mp hmem
    exact Option.noConfusion h

/-! ### Claim C5 — checksum persisted only on full success -/

/-- C5: `setCache` for the configuration checksum occurs in a `start`
trace exactly when re-provisioning ran and the database phase and both
environments' configuration retries succeeded, and it records the new
checksum; the cached checksum is replaced exactly in that case and left
unchanged whenever the database connection or either environment's
configuration ultimately fails, so a subsequent `start` re-runs
provisioning. -/
theorem setCache_only_after_full_success (config : WPConfig) (update : Bool)
    (cached : Option Nat) (configHash : Nat) (dbOk : Nat → Bool)
    (cfgOk : EnvId → Nat → Bool) (d : Nat) :
    (∀ h : Nat,
      Act.setCache h ∈
          (startTr config update cached configHash dbOk cfgOk d).trace.events ↔
        (h = configHash ∧ (update || didCacheChange configHash cached) = true ∧
          (dbPhase dbOk).2 = true ∧
          (configureRetry EnvId.development cfgOk d).2 = true ∧
          (configureRetry EnvId.tests cfgOk d).2 = true)) ∧
    ((startTr config update cached configHash dbOk cfgOk d).cacheAfter =
      if (update || didCacheChange configHash cached) && (dbPhase dbOk).2 &&
          (configureRetry EnvId.development cfgOk d).2 &&
          (configureRetry EnvId.tests cfgOk d).2
        then some configHash else cached) := by
  refine ⟨?_, startTr_cacheAfter config update cached configHash dbOk cfgOk d⟩
  intro h
  have hnotdb : Act.setCache h ∉ (dbPhase dbOk).1 :=
    notMem_dbPhase dbOk _ (fun j b hh => Act.noConfusion hh)
      (fun ms hh => Act.noConfusion hh)
  have hnotcd : Act.setCache h ∉ (configureRetry EnvId.development cfgOk d).1 :=
    notMem_configureRetry _ cfgOk d _ (fun j b hh => Act.noConfusion hh)
      (fun ms hh => Act.noConfusion hh)
  have hnotct : Act.setCache h ∉ (configureRetry EnvId.tests cfgOk d).1 :=
    notMem_configureRetry _ cfgOk d _ (fun j b hh => Act.noConfusion hh)
      (fun ms hh => Act.noConfusion hh)
  by_cases hs : (update || didCacheChange configHash cached) = true
  · rw [startTr_events config update cached configHash dbOk cfgOk d hs]
    constructor
    · intro hmem
      rcases List.mem_append.mp hmem with hmem | hmem
      · rcases List.mem_append.mp hmem with hmem | hmem
        · rcases List.mem_append.mp hmem with hmem | hmem
          · simp at hmem
          · by_cases hcore : config.coreSource = none
            · rw [if_pos hcore] at hmem; simp at hmem
            · rw [if_neg hcore] at hmem; simp at hmem
        · exact absurd hmem hnotdb
      · by_cases hdb : (dbPhase dbOk).2 = true
        · rw [if_pos hdb] at hmem
          rcases List.mem_append.mp hmem with hmem | hmem
          · rcases List.mem_append.mp hmem with hmem | hmem
            · exact absurd hmem hnotcd
            · exact absurd hmem hnotct
          · by_cases hcc : ((configureRetry EnvId.development cfgOk d).2 &&
                (configureRetry EnvId.tests cfgOk d).2) = true
            · rw [if_pos hcc] at hmem
              have hh : h = configHash := by
                simpa using hmem
              rw [Bool.and_eq_true] at hcc
              exact ⟨hh, hs, hdb, hcc.1, hcc.2⟩
            · rw [if_neg hcc] at hmem
              simp at hmem
        · rw [if_neg hdb] at hmem
          simp at hmem
    · rintro ⟨rfl, -, hdb, hcd, hct⟩
      simp [hdb, hcd, hct]
  · have hs' : (update || didCacheChange configHash cached) = false :=
      Bool.eq_false_iff.mpr hs
    obtain ⟨hev, -, -⟩ :=
      startTr_skip config update cached configHash dbOk cfgOk d hs'
    rw [hev]
    simp [hs']

/-- Witness for C5: with the tests environment's configuration always
failing, no checksum is written and the cache keeps its old value; with
everything succeeding, the new checksum is cached. -/
theorem setCache_only_after_full_success_witness :
    Act.setCache 9 ∉
      (startTr sampleConfig true (some 5) 9 dbOkSample (fun e _ => e == EnvId.development) 0).trace.events ∧
    (startTr sampleConfig true (some 5) 9 dbOkSample (fun e _ => e == EnvId.development) 0).cacheAfter = some 5 ∧
    (startTr sampleConfig true (some 5) 9 dbOkSample cfgOkSample 0).cacheAfter = some 9 := by
  refine ⟨?_, ?_, ?_⟩
  · intro hmem
    have h := (setCache_only_after_full_success sampleConfig true (some 5) 9
      dbOkSample (fun e _ => e == EnvId.development) 0).1 9 |>.mp hmem
    have := h.2.2.2.2
    simp [configureRetry, retryActs, dbOkSample] at this
  · rw [(setCache_only_after_full_success sampleConfig true (some 5) 9
      dbOkSample (fun e _ => e == EnvId.development) 0).2]
    decide
  · rw [(setCache_only_after_full_success sampleConfig true (some 5) 9
      dbOkSample cfgOkSample 0).2]
    decide

/-! ### Claim C6 — retry counts, settle delay, concurrency -/

/-- C6: when the initial database connection check fails, the database
phase performs at most 31 connection attempts in total (the initial one
plus up to 30 retries), every sleep in it is either the 1000 ms
inter-retry delay or the 4000 ms settle delay, and on success the settle
delay occurs exactly once, as the final action of the phase; afterwards
each environment's configuration step is attempted at most twice, and the
two environments' configuration retries run concurrently (as the two
branches of the configuration phase's parallel composition). -/
theorem db_retry_bounds_and_concurrent_configure (dbOk : Nat → Bool)
    (cfgOk : EnvId → Nat → Bool) (d : Nat) (h0 : dbOk 0 = false) :
    ((dbPhase dbOk).1.countP Act.isDbCheck ≤ 31) ∧
    (∀ ms, Act.sleepMs ms ∈ (dbPhase dbOk).1 → ms = 1000 ∨ ms = 4000) ∧
    ((dbPhase dbOk).2 = true →
      (dbPhase dbOk).1.getLast? = some (Act.sleepMs 4000) ∧
      (dbPhase dbOk).1.countP (fun a => a == Act.sleepMs 4000) = 1) ∧
    ((configureRetry EnvId.development cfgOk d).1.countP
        (Act.isConfigure EnvId.development) ≤ 2) ∧
    ((configureRetry EnvId.tests cfgOk d).1.countP
        (Act.isConfigure EnvId.tests) ≤ 2) ∧
    ((configurePhase cfgOk d).1 =
      Tr.parT (Tr.ofActs (configureRetry EnvId.development cfgOk d).1)
        (Tr.ofActs (configureRetry EnvId.tests cfgOk d).1)) := by
  have h0' : ¬ (dbOk 0 = true) := by simp [h0]
  have hr30 := retryActs_countP_le Act.isDbCheck Act.checkDatabaseConnection
    dbOk 1000 rfl 30 1
  have hrmem := retryActs_mem Act.checkDatabaseConnection dbOk 1000 30 1
  have hset0 : (retryActs Act.checkDatabaseConnection dbOk 1000 30 1).1.countP
      (fun a => a == Act.sleepMs 4000) = 0 := by
    apply List.countP_eq_zero.mpr
    intro a ha
    rcases hrmem a ha with ⟨j, b, hjb⟩ | hsleep
    · subst hjb; simp
    · subst hsleep; simp
  refine ⟨?_, ?_, ?_, ?_, ?_, rfl⟩
  · rw [dbPhase, if_neg h0']
    by_cases hr : (retryActs Act.checkDatabaseConnection dbOk 1000 30 1).2
    · rw [if_pos hr]
      dsimp only
      simp only [List.countP_cons, List.countP_append, List.countP_nil,
        show Act.isDbCheck (Act.checkDatabaseConnection 0 false) = true from rfl,
        show Act.isDbCheck (Act.sleepMs 4000) = false from rfl, if_true,
        Bool.false_eq_true, if_false]
      omega
    · rw [if_neg hr]
      dsimp only
      simp only [List.countP_cons,
        show Act.isDbCheck (Act.checkDatabaseConnection 0 false) = true from rfl,
        if_true]
      omega
  · intro ms hmem
    rw [dbPhase, if_neg h0'] at hmem
    by_cases hr : (retryActs Act.checkDatabaseConnection dbOk 1000 30 1).2
    · rw [if_pos hr] at hmem
      rcases List.mem_cons.mp hmem with hmem | hmem
      · exact Act.noConfusion hmem
      · rcases List.mem_append.mp hmem with hmem | hmem
        · rcases hrmem _ hmem with ⟨j, b, hjb⟩ | hsleep
          · exact Act.noConfusion hjb
          · left
            cases hsleep
            rfl
        · right
          cases List.mem_singleton.mp hmem
          rfl
    · rw [if_neg hr] at hmem
      rcases List.mem_cons.mp hmem with hmem | hmem
      · exact Act.noConfusion hmem
      · rcases hrmem _ hmem with ⟨j, b, hjb⟩ | hsleep
        · exact Act.noConfusion hjb
        · left
          cases hsleep
          rfl
  · intro hsucc
    rw [dbPhase, if_neg h0'] at hsucc ⊢
    by_cases hr : (retryActs Act.checkDatabaseConnection dbOk 1000 30 1).2
    · rw [if_pos hr]
      dsimp only
      constructor
      · rw [show Act.checkDatabaseConnection 0 false ::
            (retryActs Act.checkDatabaseConnection dbOk 1000 30 1).1 ++
            [Act.sleepMs 4000] =
            (Act.checkDatabaseConnection 0 false ::
              (retryActs Act.checkDatabaseConnection dbOk 1000 30 1).1) ++
            [Act.sleepMs 4000] from rfl]
        exact List.getLast?_concat _
      · simp only [List.countP_cons, List.countP_append, List.countP_nil,
          hset0,
          show (Act.checkDatabaseConnection 0 false == Act.sleepMs 4000) = false
            from rfl,
          show (Act.sleepMs 4000 == Act.sleepMs 4000) = true from rfl, if_true,
          Bool.false_eq_true, if_false]
    · rw [if_neg hr] at hsucc
      simp at hsucc
  · exact retryActs_countP_le _ _ _ d rfl 2 0
  · exact retryActs_countP_le _ _ _ d rfl 2 0

/-- Witness for C6 at `dbOkSample` (initial failure, success at the
third attempt) and `cfgOkSample`. -/
theorem db_retry_bounds_and_concurrent_configure_witness :
    (dbPhase dbOkSample).1.countP Act.isDbCheck ≤ 31 ∧
    (dbPhase dbOkSample).1.getLast? = some (Act.sleepMs 4000) ∧
    (configureRetry EnvId.development cfgOkSample 0).1.countP
      (Act.isConfigure EnvId.development) ≤ 2 := by
  have h := db_retry_bounds_and_concurrent_configure dbOkSample cfgOkSample 0 rfl
  exact ⟨h.1, (h.2.2.1 (by decide)).1, h.2.2.2.1⟩

/-! ### Claim C7 — git progress reporting -/

/-- C7: for a successful git acquisition whose fetch reported the
transfer statistics `stats`, the progress callback is called first with
`0` and last with exactly `1`; every intermediate call passes the value
`(receivedObjects + indexedObjects) / (totalObjects * 2)` of its event,
and — provided each event satisfies the git library's counter invariant
(`received ≤ total`, `indexed ≤ total`, `0 < total`) — every such value
lies within `[0, 1]`. -/
theorem git_progress_first_last_formula_bounds (stats : List TransferStats)
    (hinv : ∀ s ∈ stats, s.receivedObjects ≤ s.totalObjects ∧
      s.indexedObjects ≤ s.totalObjects ∧ 0 < s.totalObjects) :
    (gitProgressCalls stats).head? = some 0 ∧
    (gitProgressCalls stats).getLast? = some 1 ∧
    gitProgressCalls stats = 0 :: stats.map transferProgressValue ++ [1] ∧
    (∀ s ∈ stats, 0 ≤ transferProgressValue s ∧ transferProgressValue s ≤ 1) := by
  refine ⟨rfl, ?_, rfl, ?_⟩
  · rw [gitProgressCalls]
    rw [show (0 : ℚ) :: stats.map transferProgressValue ++ [1] =
      ((0 : ℚ) :: stats.map transferProgressValue) ++ [1] from rfl]
    exact List.getLast?_concat _
  · intro s hs
    obtain ⟨h1, h2, h3⟩ := hinv s hs
    have ht : (0 : ℚ) < (s.totalObjects : ℚ) * 2 := by
      have : (0 : ℚ) < (s.totalObjects : ℚ) := by exact_mod_cast h3
      linarith
    constructor
    · apply div_nonneg _ (le_of_lt ht)
      positivity
    · rw [transferProgressValue, div_le_one ht]
      have hn : s.receivedObjects + s.indexedObjects ≤ s.totalObjects * 2 := by
        omega
      calc (s.receivedObjects : ℚ) + (s.indexedObjects : ℚ)
          = ((s.receivedObjects + s.indexedObjects : ℕ) : ℚ) := by push_cast; ring
        _ ≤ ((s.totalObjects * 2 : ℕ) : ℚ) := by exact_mod_cast hn
        _ = (s.totalObjects : ℚ) * 2 := by push_cast; ring

/-- Witness for C7 at a two-event run. -/
theorem git_progress_first_last_formula_bounds_witness :
    (gitProgressCalls [⟨5, 3, 10⟩, ⟨10, 10, 10⟩]).head? = some 0 ∧
    (gitProgressCalls [⟨5, 3, 10⟩, ⟨10, 10, 10⟩]).getLast? = some 1 ∧
    0 ≤ transferProgressValue ⟨5, 3, 10⟩ ∧ transferProgressValue ⟨5, 3, 10⟩ ≤ 1 := by
  have h := git_progress_first_last_formula_bounds [⟨5, 3, 10⟩, ⟨10, 10, 10⟩]
    (by decide)
  refine ⟨h.1, h.2.1, h.2.2.2 ⟨5, 3, 10⟩ (by decide)⟩

/-! ### String lemmas for mount strings -/

/-- A colon-free prefix before the first colon is determined: two
colon-separated strings over colon-free heads agree iff head and tail
agree. -/
theorem colon_chars_inj :
    ∀ (a b r₁ r₂ : List Char), ':' ∉ a → ':' ∉ b →
      a ++ ':' :: r₁ = b ++ ':' :: r₂ → a = b ∧ r₁ = r₂ := by
  intro a
  induction a with
  | nil =>
    intro b r₁ r₂ _ hb h
    cases b with
    | nil =>
      simp only [List.nil_append, List.cons.injEq] at h
      exact ⟨rfl, h.2⟩
    | cons x xs =>
      simp only [List.nil_append, List.cons_append, List.cons.injEq] at h
      exact absurd (h.1 ▸ List.mem_cons_self x xs) hb
  | cons y ys ih =>
    intro b r₁ r₂ ha hb h
    cases b with
    | nil =>
      simp only [List.cons_append, List.nil_append, List.cons.injEq] at h
      exact absurd (h.1 ▸ List.mem_cons_self y ys) ha
    | cons x xs =>
      simp only [List.cons_append, List.cons.injEq] at h
      obtain ⟨hyx, hrest⟩ := h
      have ha' : ':' ∉ ys := fun hm => ha (List.mem_cons_of_mem _ hm)
      have hb' : ':' ∉ xs := fun hm => hb (List.mem_cons_of_mem _ hm)
      obtain ⟨h1, h2⟩ := ih xs r₁ r₂ ha' hb' hrest
      exact ⟨by rw [hyx, h1], h2⟩

/-- A mount string whose container side is longer than `/var/www/html`
cannot equal a mount of `/var/www/html`, for colon-free host paths. -/
theorem colon_append_ne_html {s c : String} {post : List Char}
    (hs : noColon s) (hc : noColon c) (hlen : 13 < post.length) :
    s.data ++ ':' :: post ≠ c.data ++ ':' :: ("/var/www/html" : String).data := by
  intro h
  obtain ⟨-, h2⟩ := colon_chars_inj _ _ _ _ hs hc h
  have hl := congrArg List.length h2
  rw [show ("/var/www/html" : String).data.length = 13 from rfl] at hl
  omega

/-! ### Claim C3 — shared local core rewrites the tests mounts -/

/-- C3: when both environments' core sources are source-equivalent
(equal destination paths) and the development core is of type local, the
generated tests mount list does not contain the development core mount
string `<corePath>:/var/www/html`; its leading mounts are the core
source's `testsPath` mounted at `/var/www/html`, followed by one mount
per top-level entry of the shared core directory excluding
`wp-config.php`, `wp-config-sample.php` and `wp-content`, each mounted
from the original source path, followed by the remaining (non-core)
tests mounts.  The colon-freeness hypotheses rule out degenerate source
paths containing the docker mount separator, and `testsPath ≠ path`
states that the tests variant directory is distinct from the shared
core. -/
theorem shared_local_core_tests_mounts (readDir : String → List String)
    (config : WPConfig) (c ct : WPSource)
    (hdev : config.development.coreSource = some c)
    (htst : config.tests.coreSource = some ct)
    (hpath : c.path = ct.path)
    (hloc : c.type = SourceType.local)
    (hloct : ct.type = SourceType.local)
    (hnc : noColon c.path)
    (hncM : ∀ m ∈ config.tests.mappings, noColon m.2.path)
    (hncP : ∀ s ∈ config.tests.pluginSources, noColon s.path)
    (hncT : ∀ s ∈ config.tests.themeSources, noColon s.path)
    (hts : c.testsPath ≠ c.path) :
    (c.path ++ ":/var/www/html") ∉
      (buildDockerComposeConfig readDir config).testsWordpress.volumes ∧
    (buildDockerComposeConfig readDir config).testsWordpress.volumes =
      (c.testsPath ++ ":/var/www/html") ::
        (((readDir c.path).filter (fun filename =>
            filename ≠ "wp-config.php" ∧ filename ≠ "wp-config-sample.php" ∧
            filename ≠ "wp-content")).map
          (fun filename =>
            pathJoin c.path filename ++ ":/var/www/html/" ++ filename) ++
          (getMounts config.tests "tests-wordpress").tail) := by
  have hvols : (buildDockerComposeConfig readDir config).testsWordpress.volumes =
      (c.testsPath ++ ":/var/www/html") ::
        (((readDir c.path).filter (fun filename =>
            filename ≠ "wp-config.php" ∧ filename ≠ "wp-config-sample.php" ∧
            filename ≠ "wp-content")).map
          (fun filename =>
            pathJoin c.path filename ++ ":/var/www/html/" ++ filename) ++
          (getMounts config.tests "tests-wordpress").tail) := by
    simp only [buildDockerComposeConfig, hdev, htst, hasSameCoreSource, hpath,
      hloc, beq_self_eq_true, if_true]
  refine ⟨?_, hvols⟩
  rw [hvols]
  intro hmem
  rcases List.mem_cons.mp hmem with heq | hmem'
  · have hd := congrArg String.data heq
    rw [String.data_append, String.data_append] at hd
    exact hts (String.ext ((List.append_left_inj _).mp hd)).symm
  · rcases List.mem_append.mp hmem' with hentry | htail
    · obtain ⟨f, -, heqf⟩ := List.mem_map.mp hentry
      have hd := congrArg String.data heqf
      simp only [pathJoin, String.data_append] at hd
      have hl := congrArg List.length hd
      simp only [List.length_append, List.length_cons, List.length_nil] at hl
      omega
    · have htail' : (getMounts config.tests "tests-wordpress").tail =
          config.tests.mappings.map
            (fun m => m.2.path ++ ":/var/www/html/" ++ m.1) ++
          config.tests.pluginSources.map
            (fun source =>
              source.path ++ ":/var/www/html/wp-content/plugins/" ++
                source.basename) ++
          config.tests.themeSources.map
            (fun source =>
              source.path ++ ":/var/www/html/wp-content/themes/" ++
                source.basename) := rfl
      rw [htail'] at htail
      rcases List.mem_append.mp htail with hmt | hthm
      · rcases List.mem_append.mp hmt with hdir | hplg
        · obtain ⟨m, hm, heqf⟩ := List.mem_map.mp hdir
          have hd := congrArg String.data heqf
          simp only [String.data_append] at hd
          rw [List.append_assoc] at hd
          have hd' : m.2.path.data ++
              ':' :: (("/var/www/html/" : String).data ++ m.1.data) =
              c.path.data ++ ':' :: ("/var/www/html" : String).data := hd
          refine colon_append_ne_html (hncM m hm) hnc ?_ hd'
          rw [List.length_append,
            show ("/var/www/html/" : String).data.length = 14 from rfl]
          omega
        · obtain ⟨s, hsmem, heqf⟩ := List.mem_map.mp hplg
          have hd := congrArg String.data heqf
          simp only [String.data_append] at hd
          rw [List.append_assoc] at hd
          have hd' : s.path.data ++
              ':' :: (("/var/www/html/wp-content/plugins/" : String).data ++
                s.basename.data) =
              c.path.data ++ ':' :: ("/var/www/html" : String).data := hd
          refine colon_append_ne_html (hncP s hsmem) hnc ?_ hd'
          rw [List.length_append,
            show ("/var/www/html/wp-content/plugins/" : String).data.length = 33
              from rfl]
          omega
      · obtain ⟨s, hsmem, heqf⟩ := List.mem_map.mp hthm
        have hd := congrArg String.data heqf
        simp only [String.data_append] at hd
        rw [List.append_assoc] at hd
        have hd' : s.path.data ++
            ':' :: (("/var/www/html/wp-content/themes/" : String).data ++
              s.basename.data) =
            c.path.data ++ ':' :: ("/var/www/html" : String).data := hd
        refine colon_append_ne_html (hncT s hsmem) hnc ?_ hd'
        rw [List.length_append,
          show ("/var/www/html/wp-content/themes/" : String).data.length = 32
            from rfl]
        omega

/-- Witness for C3 at `sharedCoreConfig` and `sampleReadDir`. -/
theorem shared_local_core_tests_mounts_witness :
    ("/home/user/core:/var/www/html") ∉
      (buildDockerComposeConfig sampleReadDir sharedCoreConfig).testsWordpress.volumes ∧
    (buildDockerComposeConfig sampleReadDir sharedCoreConfig).testsWordpress.volumes =
      ["/wd/tests-wordpress:/var/www/html",
       "/home/user/core/index.php:/var/www/html/index.php",
       "/home/user/core/wp-admin:/var/www/html/wp-admin",
       "/home/user/core/wp-includes:/var/www/html/wp-includes",
       "/home/user/my-plugin:/var/www/html/wp-content/mu-plugins",
       "/home/user/my-plugin:/var/www/html/wp-content/plugins/my-plugin"] := by
  have h := shared_local_core_tests_mounts sampleReadDir sharedCoreConfig
    sampleLocalCore sampleLocalCore rfl rfl rfl rfl rfl (by decide)
    (by decide) (by decide) (by decide) (by decide)
  refine ⟨?_, ?_⟩
  · intro hmem
    exact h.1 hmem
  · rw [h.2]
    decide

end WpEnv
